import Mathlib

/-!
# Verification of the attack-map dashboard event subsystem

A shallow embedding of the client-side event-ingestion subsystem of the
geoip-attack-map dashboard (`src/static/dashboard.js` and the map script),
together with proofs about the embedded operations.

Conventions of the embedding:
* JavaScript millisecond timestamps are `Nat`; cutoff arithmetic that can go
  negative in JavaScript is carried out in `Int`.
* A JavaScript value that may be `undefined` is an `Option`; string
  truthiness (`if (s)`) is `false` for `undefined` and for the empty string,
  numeric truthiness is `false` for `undefined` and for `0`.
* JavaScript objects used as string-keyed dictionaries are association
  lists in insertion order (`aupdate` updates in place or appends).
* Numeric division in the heatmap intensity formula is modelled exactly
  over `ℚ` rather than via IEEE-754 doubles.
* DOM rendering, chart updates, sound and logging are omitted: they read
  the state but never write the data structures treated here.
-/

set_option autoImplicit false

/-- JavaScript string truthiness of a possibly-undefined string. -/
def truthyS : Option String → Bool
  | some s => s ≠ ""
  | none => false

/-- JavaScript `a || b` on possibly-undefined strings. -/
def jsOrS (a b : Option String) : Option String :=
  if truthyS a then a else b

/-- JavaScript numeric truthiness of a possibly-undefined number
(`undefined` and `0` are falsy). -/
def truthyN : Option Int → Bool
  | some v => v ≠ 0
  | none => false

/-- The string a JavaScript property key coerces to: `undefined` becomes
the literal key `"undefined"`. -/
def jsPropKey : Option String → String
  | some s => s
  | none => "undefined"

/-- An attack event as built by the transport layer and consumed by the
dashboard (`dashboard.js`).  Fields that the modelled operations read.
`timestamp`/`cached_at` are millisecond clock values; `0` stands for a
missing (falsy) timestamp. -/
structure Event where
  ip : Option String
  source_ip : Option String
  ip_rep : Option String
  country : Option String
  iso_code : Option String
  country_code : Option String
  protocol : Option String
  honeypot : Option String
  source_lat : Option Int
  source_lng : Option Int
  timestamp : Nat
  cached_at : Nat
deriving DecidableEq, Repr

/-- `AttackCache.retentionPeriod`: 24 hours in milliseconds. -/
def retentionPeriod : Nat := 24 * 60 * 60 * 1000

/-- `AttackCache.maxEvents`: the performance/memory cap. -/
def maxEvents : Nat := 10000

/-- `AttackCache.cleanupInterval`: five minutes in milliseconds. -/
def cleanupInterval : Nat := 5 * 60 * 1000

/-- The record `storeEvent` actually writes: a spread copy of the event
with `timestamp` defaulted to the current time when falsy and `cached_at`
stamped (`dashboard.js` lines 95-101). The original event value is not
part of the output: the copy is what reaches either backend. -/
def storedCopy (now : Nat) (e : Event) : Event :=
  { e with
    timestamp := if e.timestamp ≠ 0 then e.timestamp else now
    cached_at := now }

/-- The serialized LocalStorage blob `{events, lastCleanup, version}`. -/
structure LSCache where
  events : List Event
  lastCleanup : Nat
  version : Nat
deriving DecidableEq, Repr

/-- The cache `initLocalStorage` writes when none exists. -/
def initLSCache (now : Nat) : LSCache :=
  { events := [], lastCleanup := now, version := 1 }

/-- `AttackCache.storeEventLocalStorage`: push the (already copied) record
and trim to the newest `maxEvents` with `slice(-maxEvents)`. -/
def storeEventLocalStorage (rec : Event) (c : LSCache) : LSCache :=
  let pushed := c.events ++ [rec]
  { c with
    events :=
      if maxEvents < pushed.length then pushed.drop (pushed.length - maxEvents)
      else pushed }

/-- `AttackCache.storeEventIndexedDB`: `store.add` appends a fresh record
(keys are auto-increment, so insertion order is key order). -/
def storeEventIndexedDB (rec : Event) (st : List Event) : List Event :=
  st ++ [rec]

/-- `AttackCache.storeEvent` on the LocalStorage backend: build the spread
copy, then hand it to the backend. -/
def storeEventLS (now : Nat) (e : Event) (c : LSCache) : LSCache :=
  storeEventLocalStorage (storedCopy now e) c

/-- `AttackCache.storeEvent` on the IndexedDB backend. -/
def storeEventIDB (now : Nat) (e : Event) (st : List Event) : List Event :=
  storeEventIndexedDB (storedCopy now e) st

/-- The retention filter of `cleanupLocalStorage` / `getStoredEventsLocalStorage`:
`event.timestamp && event.timestamp > cutoff` with `cutoff = now - retentionPeriod`
(an `Int`, since it can be negative early after the epoch). -/
def withinRetention (now : Nat) (e : Event) : Bool :=
  e.timestamp ≠ 0 && (e.timestamp : Int) > (now : Int) - (retentionPeriod : Int)

/-- `AttackCache.cleanupLocalStorage`: keep events inside the retention
window, then trim to `maxEvents` keeping the tail, stamping `lastCleanup`. -/
def cleanupLocalStorage (now : Nat) (c : LSCache) : LSCache :=
  let kept := c.events.filter (withinRetention now)
  { c with
    events :=
      if maxEvents < kept.length then kept.drop (kept.length - maxEvents)
      else kept
    lastCleanup := now }

/-- `AttackCache.cleanupIndexedDB`: a cursor over
`IDBKeyRange.upperBound(cutoff)` (inclusive) deletes every record with
`timestamp ≤ now - retentionPeriod`; nothing else is touched — in
particular there is no `maxEvents` trim on this backend. -/
def cleanupIndexedDB (now : Nat) (st : List Event) : List Event :=
  st.filter (fun e => !((e.timestamp : Int) ≤ (now : Int) - (retentionPeriod : Int)))

/-- `AttackCache.getStoredEventsIndexedDB`: `index.getAll` over
`IDBKeyRange.lowerBound(cutoff)`, which is inclusive, so the result is
every record with `timestamp ≥ now - retentionPeriod`. -/
def getStoredEventsIndexedDB (now : Nat) (st : List Event) : List Event :=
  st.filter (fun e => (e.timestamp : Int) ≥ (now : Int) - (retentionPeriod : Int))

/-- `AttackCache.getStoredEventsLocalStorage`: full scan filtered by the
strict retention predicate. -/
def getStoredEventsLocalStorage (now : Nat) (c : LSCache) : List Event :=
  c.events.filter (withinRetention now)

/-! ## Aggregation engine: protocol normalization, trackers, timeline, heatmap -/

/-- The known-protocol whitelist of `normalizeProtocol` (`dashboard.js`
lines 670-677). -/
def knownProtocols : List String :=
  ["CHARGEN", "FTP-DATA", "FTP", "SSH", "TELNET", "SMTP", "WINS", "DNS", "DHCP", "TFTP",
   "HTTP", "DICOM", "POP3", "NTP", "RPC", "IMAP", "SNMP", "LDAP", "HTTPS", "SMB",
   "SMTPS", "EMAIL", "IPMI", "IPP", "IMAPS", "POP3S", "NFS", "SOCKS", "SQL", "ORACLE",
   "PPTP", "MQTT", "SSDP", "IEC104", "HL7", "MYSQL", "RDP", "IPSEC", "SIP", "POSTGRESQL",
   "ADB", "VNC", "REDIS", "IRC", "JETDIRECT", "ELASTICSEARCH", "INDUSTRIAL", "MEMCACHED",
   "MONGODB", "SCADA"]

/-- `normalizeProtocol`: falsy and numeric-looking strings map to `OTHER`;
otherwise the uppercased name is kept iff it is on the whitelist. -/
def normalizeProtocol (p : Option String) : String :=
  match p with
  | none => "OTHER"
  | some s =>
    if s = "" then "OTHER"
    else if s.toList.all Char.isDigit then "OTHER"
    else if s.toUpper ∈ knownProtocols then s.toUpper
    else "OTHER"

/-- Lookup in a JavaScript-object-like association list. -/
def alookup {β : Type} (k : String) : List (String × β) → Option β
  | [] => none
  | (k₁, v) :: r => if k₁ = k then some v else alookup k r

/-- Property write on a JavaScript-object-like association list: update in
place when the key exists, append otherwise (insertion order preserved). -/
def aupdate {β : Type} (k : String) (f : Option β → β) : List (String × β) → List (String × β)
  | [] => [(k, f none)]
  | (k₁, v) :: r => if k₁ = k then (k₁, f (some v)) :: r else (k₁, v) :: aupdate k f r

/-- One row of `this.ipStats` as maintained by the effective
`updateIPTracking` (`dashboard.js` lines 3161-3206; the later definition in
the class body shadows the earlier one at line 3009). -/
structure IpEntry where
  hits : Nat
  country : Option String
  lastSeen : Nat
  ip : String
  reputation : String
  lastProtocol : String
  countryCode : String
deriving DecidableEq, Repr

/-- `(event && event.timestamp) ? new Date(event.timestamp) : new Date()`:
the millisecond value the trackers read for the event. -/
def jsDateOf (e : Event) (now : Nat) : Nat :=
  if e.timestamp ≠ 0 then e.timestamp else now

/-- The effective `updateIPTracking(ip, country, event)` at `dashboard.js`
line 3161, called with the current wall clock `now`: create the row with
defaults when absent, then bump `hits`, advance `lastSeen`, overwrite
`country` and conditionally refresh reputation, protocol and ISO code. -/
def updateIPTracking (ipArg : Option String) (country : Option String) (e : Event)
    (now : Nat) (m : List (String × IpEntry)) : List (String × IpEntry) :=
  let key := jsPropKey ipArg
  let ts := jsDateOf e now
  aupdate key (fun old =>
    let base := old.getD
      { hits := 0, country := country, lastSeen := ts, ip := key,
        reputation := "Unknown", lastProtocol := "Unknown", countryCode := "XX" }
    { base with
      hits := base.hits + 1
      lastSeen := if base.lastSeen ≤ ts then ts else base.lastSeen
      country := country
      reputation := if truthyS e.ip_rep then (e.ip_rep.getD "") else base.reputation
      lastProtocol := if truthyS e.protocol then normalizeProtocol e.protocol else base.lastProtocol
      countryCode :=
        if truthyS (jsOrS e.iso_code e.country_code) then (jsOrS e.iso_code e.country_code).getD ""
        else base.countryCode }) m

/-- The effective `updateProtocolStats` at `dashboard.js` line 3421 (the
later definition shadows the one at line 3033): skip falsy protocols,
otherwise count under the normalized name. -/
def updateProtocolStats (p : Option String) (st : List (String × Nat)) : List (String × Nat) :=
  if truthyS p then aupdate (normalizeProtocol p) (fun o => o.getD 0 + 1) st
  else st

/-! ### Timeline -/

/-- The timeline interval selector (`this.timelineInterval`). -/
inductive TimelineInterval
  | oneMinute
  | oneHour
  | twentyFourHours
deriving DecidableEq, Repr

/-- `getDurationForInterval`: the bucket width in milliseconds. -/
def durationFor : TimelineInterval → Nat
  | .oneMinute => 1000
  | .oneHour => 60 * 1000
  | .twentyFourHours => 60 * 60 * 1000

/-- The fixed point count of `generateTimelineData`. -/
def pointsFor : TimelineInterval → Nat
  | .oneMinute => 60
  | .oneHour => 60
  | .twentyFourHours => 24

/-- One timeline bucket (`{timestamp, label, count, unit}`; the rendered
`label`/`unit` strings are presentation only and omitted). -/
structure TimelinePoint where
  timestamp : Nat
  count : Nat
deriving DecidableEq, Repr

/-- `generateTimelineData`: for `i = points-1 .. 0` a bucket at
`now - i*duration`, rounded down to the granularity (which equals the
bucket width in every mode), with count zero. -/
def generateTimelineData (iv : TimelineInterval) (now : Nat) : List TimelinePoint :=
  let d := durationFor iv
  (List.range (pointsFor iv)).map (fun j =>
    let i := pointsFor iv - 1 - j
    { timestamp := (now - i * d) / d * d, count := 0 })

/-- First pass of `addAttackToTimeline`: bump the first bucket whose
half-open range `[timestamp, timestamp + d)` contains the attack. Returns
`none` when no bucket matches. -/
def bumpExistingBucket (d t : Nat) : List TimelinePoint → Option (List TimelinePoint)
  | [] => none
  | p :: r =>
    if p.timestamp ≤ t ∧ t < p.timestamp + d then
      some ({ p with count := p.count + 1 } :: r)
    else
      (bumpExistingBucket d t r).map (p :: ·)

/-- The synthesis loop of `addAttackToTimeline`: starting at the old last
bucket end, repeatedly shift the oldest bucket and append a fresh one until
the bucket containing the attack has been created.  `fuel` bounds the
iteration (the JavaScript loop terminates because `current` strictly
grows); call sites supply enough fuel for the loop to finish. -/
def synthBuckets (d t : Nat) : Nat → Nat → List TimelinePoint → List TimelinePoint
  | 0, _, tl => tl
  | fuel + 1, current, tl =>
    if current ≤ t then
      let bs := current / d * d
      if bs ≤ t ∧ t < bs + d then
        tl.tail ++ [{ timestamp := bs, count := 1 }]
      else
        synthBuckets d t fuel (current + d) (tl.tail ++ [{ timestamp := bs, count := 0 }])
    else tl

/-- `addAttackToTimeline` on the data (chart refresh omitted): bump an
existing bucket, else synthesize forward when the attack is past the last
bucket end, else drop the attack from the timeline. -/
def addAttackToTimeline (iv : TimelineInterval) (t : Nat) (tl : List TimelinePoint) : List TimelinePoint :=
  let d := durationFor iv
  match bumpExistingBucket d t tl with
  | some tl₁ => tl₁
  | none =>
    match tl.getLast? with
    | none => tl
    | some lastP =>
      if lastP.timestamp + d ≤ t then
        synthBuckets d t (t + 1) (lastP.timestamp + d) tl
      else tl

/-! ### Heatmap -/

/-- One heatmap slot `{hour, intensity, attacks}`. -/
structure HeatSlot where
  hour : Nat
  intensity : ℚ
  attacks : Nat
deriving DecidableEq, Repr

/-- `setupHeatmapData`: 24 zeroed hour slots. -/
def setupHeatmapData : List HeatSlot :=
  (List.range 24).map (fun h => { hour := h, intensity := 0, attacks := 0 })

/-- `new Date(t).getHours()`, modelled in UTC: the hour-of-day slot of a
millisecond timestamp. -/
def hourOf (t : Nat) : Nat := t / (60 * 60 * 1000) % 24

/-- `Math.max(...heatmapData.map(h => h.attacks), 1)`. -/
def maxAttacks (l : List HeatSlot) : Nat :=
  l.foldr (fun s m => max s.attacks m) 1

/-- The intensity recomputation shared by `addAttackToHeatmap` and
`populateHeatmapFromHistory`:
`intensity = maxAttacks > 0 ? attacks / maxAttacks * 100 : 0` over all slots. -/
def recomputeIntensity (l : List HeatSlot) : List HeatSlot :=
  l.map (fun s =>
    { s with
      intensity :=
        if 0 < maxAttacks l then (s.attacks : ℚ) / (maxAttacks l : ℚ) * 100 else 0 })

/-- In-place update of the element at an index (JavaScript `a[i].f = ...`). -/
def modifyAt {α : Type} (i : Nat) (f : α → α) : List α → List α
  | [] => []
  | x :: r =>
    match i with
    | 0 => f x :: r
    | i + 1 => x :: modifyAt i f r

/-- `addAttackToHeatmap` on the data: bump the slot of the attack hour
(the guard `0 ≤ hour ≤ 23` always holds), then recompute every intensity. -/
def addAttackToHeatmap (t : Nat) (l : List HeatSlot) : List HeatSlot :=
  recomputeIntensity (modifyAt (hourOf t) (fun s => { s with attacks := s.attacks + 1 }) l)

/-! ## Aggregation state and the live / replay ingestion steps -/

/-- The aggregation state the replay/live equivalence compares: the top-IP
tracker, the timeline buckets, the heatmap slots and the protocol
histogram. -/
structure AggState where
  ipStats : List (String × IpEntry)
  timeline : List TimelinePoint
  heatmap : List HeatSlot
  protocolStats : List (String × Nat)
deriving DecidableEq, Repr

/-- `new Date(attack.timestamp || attack.time || attack.date || Date.now())`:
the time used to place an attack (the `time`/`date` fields are never set on
events reaching these paths). -/
def attackTime (e : Event) (now : Nat) : Nat :=
  if e.timestamp ≠ 0 then e.timestamp else now

/-- The in-place assignment `event.timestamp = Date.now()` performed by
`addAttackEvent` at `dashboard.js` line 2926: the event object after the
ingestion boundary has run. -/
def ingestedEvent (now : Nat) (e : Event) : Event :=
  { e with timestamp := now }

/-- The per-event aggregation work of the cache-restore batch loop
(`restoreFromCache`, `dashboard.js` lines 463-481): timeline, heatmap,
IP tracker (keyed `event.ip || event.source_ip`) and protocol histogram,
taken at replay wall-clock `rnow`.  (Honeypot and country tracking also
run there but are outside the compared state.) -/
def replayAggStep (iv : TimelineInterval) (rnow : Nat) (s : AggState) (e : Event) : AggState :=
  { timeline := addAttackToTimeline iv (attackTime e rnow) s.timeline
    heatmap := addAttackToHeatmap (attackTime e rnow) s.heatmap
    ipStats := updateIPTracking (jsOrS e.ip e.source_ip) e.country e rnow s.ipStats
    protocolStats := updateProtocolStats e.protocol s.protocolStats }

/-- The aggregation work of live ingestion (`addAttackEvent` +
`updateLiveAttackDisplay`): the event is first mutated to carry the ingest
time, then fed to the same four updates, the IP tracker keyed by
`event.ip` alone. -/
def liveAggStep (iv : TimelineInterval) (now : Nat) (s : AggState) (e : Event) : AggState :=
  let ei := ingestedEvent now e
  { timeline := addAttackToTimeline iv (attackTime ei now) s.timeline
    heatmap := addAttackToHeatmap (attackTime ei now) s.heatmap
    ipStats := updateIPTracking ei.ip ei.country ei now s.ipStats
    protocolStats := updateProtocolStats ei.protocol s.protocolStats }

/-! ## Connection monitor -/

/-- `WebSocket.readyState`. -/
inductive ReadyState
  | connecting
  | opened
  | closing
  | closed
deriving DecidableEq, Repr

/-- The dashboard connection status values. -/
inductive ConnStatus
  | connecting
  | connected
  | idle
  | disconnected
deriving DecidableEq, Repr

/-- The idle threshold of `syncConnectionStatus`: 30 seconds. -/
def idleThresholdMs : Int := 30000

/-- The poll period of `startConnectionStatusMonitoring`: 2 seconds. -/
def connectionPollMs : Nat := 2000

/-- `syncConnectionStatus` (`dashboard.js` lines 2661-2693): socket
readiness is checked first (absent socket, CLOSING and CLOSED are
`disconnected`, CONNECTING is `connecting`); only an OPEN socket consults
data recency via `window.lastValidDataTime || 0` against the 30 s
threshold. -/
def syncConnectionStatus (sock : Option ReadyState) (lastValidDataTime : Option Int)
    (now : Int) : ConnStatus :=
  match sock with
  | none => .disconnected
  | some .connecting => .connecting
  | some .closing => .disconnected
  | some .closed => .disconnected
  | some .opened =>
    let lastMsgTime := lastValidDataTime.getD 0
    if now - lastMsgTime < idleThresholdMs then .connected else .idle

/-! ## WebSocket reconnection (map script, `src/unnamed/part_001`) -/

/-- `reconnectDelay`: the fixed 60 second reconnection delay. -/
def reconnectDelay : Nat := 60000

/-- The reconnection-relevant globals of the map script: the in-flight
guard, the attempt counter, the delays of scheduled but unfired reconnect
timeouts, the socket and the `webSocketConnected` flag. -/
structure WSState where
  isReconnecting : Bool
  reconnectAttempts : Nat
  pendingReconnects : List Nat
  socket : Option ReadyState
  webSocketConnected : Bool
deriving DecidableEq, Repr

/-- `connectWebSocket`: a no-op while `isReconnecting`; otherwise closes
any existing socket, sets the guard and opens a fresh connecting socket. -/
def connectWebSocket (s : WSState) : WSState :=
  if s.isReconnecting then s
  else { s with isReconnecting := true, socket := some .connecting }

/-- `webSocket.onopen`: clear the guard and counter, mark connected. -/
def wsOnOpen (s : WSState) : WSState :=
  { s with
    isReconnecting := false, reconnectAttempts := 0,
    socket := some .opened, webSocketConnected := true }

/-- `webSocket.onclose` (`part_001` lines 1337-1382): clear the connected
flag; for any close code other than 1000 schedule exactly one reconnect
after the fixed delay, for 1000 schedule nothing and release the guard. -/
def wsOnClose (code : Nat) (s : WSState) : WSState :=
  if code ≠ 1000 then
    { s with
      webSocketConnected := false, socket := some .closed,
      pendingReconnects := s.pendingReconnects ++ [reconnectDelay] }
  else
    { s with
      webSocketConnected := false, socket := some .closed,
      isReconnecting := false }

/-- A scheduled reconnect timeout fires: bump the attempt counter, release
the guard, and call `connectWebSocket`. -/
def wsFireReconnect (s : WSState) : WSState :=
  match s.pendingReconnects with
  | [] => s
  | _ :: rest =>
    connectWebSocket
      { s with
        pendingReconnects := rest,
        reconnectAttempts := s.reconnectAttempts + 1,
        isReconnecting := false }

/-! ## Visual-marker restoration filter (`finalizeRestoration`) -/

/-- `MAX_MAP_CIRCLES`. -/
def maxMapCircles : Nat := 200

/-- The location key of `finalizeRestoration`
(`dashboard.js` lines 521-523): the `"lat,lng"` string when both
coordinates are truthy, else `event.source_ip || event.ip`; a falsy result
(`undefined` or the empty string) means the event is keyless and skipped. -/
def locationKey (e : Event) : Option String :=
  if truthyN e.source_lat ∧ truthyN e.source_lng then
    some (toString ((e.source_lat.getD 0)) ++ "," ++ toString ((e.source_lng.getD 0)))
  else
    match jsOrS e.source_ip e.ip with
    | some s => if s = "" then none else some s
    | none => none

/-- `Set.add` on the insertion-ordered model of `uniqueLocations`. -/
def insertKey (k : String) (ks : List String) : List String :=
  if k ∈ ks then ks else ks ++ [k]

/-- One iteration of the backwards scan of `finalizeRestoration`
(`dashboard.js` lines 518-531): keep the event iff it has a key and either
fewer than `maxMapCircles` distinct keys have been collected or its key was
already collected. -/
def restoreStep (st : List Event × List String) (e : Event) : List Event × List String :=
  match locationKey e with
  | none => st
  | some k =>
    if st.2.length < maxMapCircles ∨ k ∈ st.2 then (st.1 ++ [e], insertKey k st.2)
    else st

/-- The whole marker-restoration selection: scan the cached events newest
to oldest, then reverse the selection back to chronological order. -/
def finalizeMapEvents (evs : List Event) : List Event :=
  ((evs.reverse).foldl restoreStep ([], [])).1.reverse

/-! ## Dashboard state: persistence gating and the restore flag -/

/-- The persistent store, under either backend. -/
inductive StoreState
  | idb (events : List Event)
  | ls (c : LSCache)
deriving DecidableEq, Repr

/-- `AttackCache.storeEvent` dispatched on the active backend. -/
def storeEvent (now : Nat) (e : Event) : StoreState → StoreState
  | .idb evs => .idb (storeEventIDB now e evs)
  | .ls c => .ls (storeEventLS now e c)

/-- The dashboard fields `addAttackEvent` interacts with. -/
structure DashState where
  cacheInitialized : Bool
  restoringFromCache : Bool
  attackHistory : List Event
  agg : AggState
  store : StoreState
deriving DecidableEq, Repr

/-- `addAttackEvent` (`dashboard.js` lines 2923-2965) at wall clock `now`:
overwrite the event timestamp, push it on the history, persist only when
the cache is initialized and no restore is in flight, run the aggregation
updates, and trim the history to 1000. -/
def addAttackEvent (iv : TimelineInterval) (now : Nat) (e : Event) (s : DashState) : DashState :=
  let ei := ingestedEvent now e
  let hist := s.attackHistory ++ [ei]
  { s with
    attackHistory := if 1000 < hist.length then hist.tail else hist
    store :=
      if s.cacheInitialized ∧ ¬s.restoringFromCache then storeEvent now ei s.store
      else s.store
    agg := liveAggStep iv now s.agg e }

/-- The dashboard actions that touch the store or the restore flag:
a live ingest, the start of a cache restore (`restoreFromCache` sets the
flag) and its completion (`finalizeRestoration` clears it). -/
inductive DashAction
  | ingest (now : Nat) (e : Event)
  | beginRestore
  | finishRestore
deriving DecidableEq, Repr

/-- One dashboard action applied to the state (restore replay itself never
writes the store: the batch loop only runs aggregation updates). -/
def dashStep (iv : TimelineInterval) (s : DashState) : DashAction → DashState
  | .ingest now e => addAttackEvent iv now e s
  | .beginRestore => { s with restoringFromCache := true }
  | .finishRestore => { s with restoringFromCache := false }

/-- Run a sequence of dashboard actions. -/
def dashRun (iv : TimelineInterval) (s : DashState) (acts : List DashAction) : DashState :=
  acts.foldl (dashStep iv) s

/-- The `(now, record)` pairs that actually reach the persistent store
along a run, given the initial `cacheInitialized` / `restoringFromCache`
flags: exactly the ingests executed while not restoring. -/
def storedTrace (ci restoring : Bool) : List DashAction → List (Nat × Event)
  | [] => []
  | .ingest now e :: rest =>
    (if ci ∧ ¬restoring then [(now, ingestedEvent now e)] else []) ++ storedTrace ci restoring rest
  | .beginRestore :: rest => storedTrace ci true rest
  | .finishRestore :: rest => storedTrace ci false rest

/-- Replay the stored writes onto a store. -/
def applyStores (st : StoreState) (l : List (Nat × Event)) : StoreState :=
  l.foldl (fun st p => storeEvent p.1 p.2 st) st

/-! ## Theorems -/

/-- **C3** — For every evaluation of the connection monitor poll: an OPEN
socket with `lastValidDataTime` 40000 ms in the past yields `Idle`, an OPEN
socket with data 5000 ms in the past yields `Connected`, and a CLOSED,
CLOSING or absent socket yields `Disconnected` regardless of data recency;
socket readiness is checked before data recency, the idle threshold is
30000 ms and the poll period 2000 ms. -/
theorem c3_connection_monitor (now : Int) (lvdt : Option Int) (l : Int) :
    syncConnectionStatus (some .opened) (some (now - 40000)) now = .idle
    ∧ syncConnectionStatus (some .opened) (some (now - 5000)) now = .connected
    ∧ syncConnectionStatus (some .closed) lvdt now = .disconnected
    ∧ syncConnectionStatus (some .closing) lvdt now = .disconnected
    ∧ syncConnectionStatus none lvdt now = .disconnected
    ∧ syncConnectionStatus (some .opened) (some l) now =
        (if now - l < idleThresholdMs then .connected else .idle)
    ∧ idleThresholdMs = 30000 ∧ connectionPollMs = 2000 := by
  refine ⟨?_, ?_, rfl, rfl, rfl, rfl, rfl, rfl⟩
  · simp only [syncConnectionStatus, Option.getD, idleThresholdMs]
    have h : ¬ (now - (now - 40000) < (30000 : Int)) := by omega
    simp [h]
  · simp only [syncConnectionStatus, Option.getD, idleThresholdMs]
    have h : now - (now - 5000) < (30000 : Int) := by omega
    simp [h]

/-- **C4** — Every close with code ≠ 1000 schedules exactly one reconnect
after the fixed 60000 ms delay; a close with code 1000 schedules none; the
`isReconnecting` guard makes `connectWebSocket` a no-op while an attempt is
pending, so a second call during an attempt changes nothing. -/
theorem c4_reconnect_guard (s : WSState) (code : Nat) :
    (code ≠ 1000 → (wsOnClose code s).pendingReconnects = s.pendingReconnects ++ [60000])
    ∧ (code = 1000 → (wsOnClose code s).pendingReconnects = s.pendingReconnects)
    ∧ (s.isReconnecting = true → connectWebSocket s = s)
    ∧ connectWebSocket (connectWebSocket s) = connectWebSocket s
    ∧ reconnectDelay = 60000 := by
  refine ⟨?_, ?_, ?_, ?_, rfl⟩
  · intro h; simp [wsOnClose, h, reconnectDelay]
  · intro h; simp [wsOnClose, h]
  · intro h; simp [connectWebSocket, h]
  · by_cases h : s.isReconnecting = true
    · simp [connectWebSocket, h]
    · simp only [connectWebSocket]
      simp only [Bool.not_eq_true] at h
      simp [h]

/-- Witness for `c4_reconnect_guard` at a concrete state and close code. -/
theorem c4_reconnect_guard_witness :
    (wsOnClose 1006 ⟨false, 0, [], none, false⟩).pendingReconnects = [60000]
    ∧ connectWebSocket ⟨true, 0, [], some .opened, true⟩ = ⟨true, 0, [], some .opened, true⟩ := by
  constructor
  · have h := (c4_reconnect_guard ⟨false, 0, [], none, false⟩ 1006).1 (by decide)
    simpa using h
  · exact (c4_reconnect_guard ⟨true, 0, [], some .opened, true⟩ 1006).2.2.1 rfl

/-- **C7 (counterexample)** — The claim says an event with timestamp exactly
`now - windowMs` is excluded on both backends, but the indexed backend's
`IDBKeyRange.lowerBound(cutoff)` is inclusive: at `now = 86400001` the
boundary event with timestamp `1 = now - windowMs` is returned. -/
theorem c7_boundary_event_returned :
    getStoredEventsIndexedDB 86400001
        [⟨none, none, none, none, none, none, none, none, none, none, 1, 0⟩]
      = [⟨none, none, none, none, none, none, none, none, none, none, 1, 0⟩]
    ∧ (1 : Int) = (86400001 : Int) - (retentionPeriod : Int) := by
  constructor
  · rfl
  · decide

/-- **C7 (amended)** — `queryRecent`: the fallback backend returns exactly
the events of the full scan with a truthy timestamp strictly greater than
`now - windowMs`, while the indexed backend returns exactly the events with
timestamp ≥ `now - windowMs` (the boundary event is included there). -/
theorem c7_query_recent_amended (now : Nat) (c : LSCache) (st : List Event) :
    (∀ e : Event, e ∈ getStoredEventsLocalStorage now c ↔
      e ∈ c.events ∧ e.timestamp ≠ 0 ∧ (e.timestamp : Int) > (now : Int) - (retentionPeriod : Int))
    ∧ (∀ e : Event, e ∈ getStoredEventsIndexedDB now st ↔
      e ∈ st ∧ (e.timestamp : Int) ≥ (now : Int) - (retentionPeriod : Int)) := by
  constructor
  · intro e
    simp [getStoredEventsLocalStorage, List.mem_filter, withinRetention, and_assoc]
  · intro e
    simp [getStoredEventsIndexedDB, List.mem_filter]

/-- **C9 (counterexample)** — The claim says `addAttackEvent` leaves the
event's fields, including `timestamp`, unchanged; but line 2926 assigns
`event.timestamp = Date.now()` in place: an event created with timestamp 5
and ingested at time 10 ends up with timestamp 10. -/
theorem c9_ingestion_mutates_timestamp :
    (ingestedEvent 10 ⟨none, none, none, none, none, none, none, none, none, none, 5, 0⟩).timestamp = 10
    ∧ (⟨none, none, none, none, none, none, none, none, none, none, 5, 0⟩ : Event).timestamp = 5
    ∧ ingestedEvent 10 ⟨none, none, none, none, none, none, none, none, none, none, 5, 0⟩
        ≠ ⟨none, none, none, none, none, none, none, none, none, none, 5, 0⟩ := by
  refine ⟨rfl, rfl, ?_⟩
  decide

/-- **C9 (amended)** — Persistence writes a spread copy and the original is
untouched: the stored record keeps every identity field of the event,
defaults `timestamp` only when falsy and stamps `cached_at`; ingestion
(`addAttackEvent`), however, overwrites the event's `timestamp` in place
with the ingest time, leaving every other field unchanged; replay consumes
events without producing modified ones. -/
theorem c9_copy_semantics (now : Nat) (e : Event) (st : List Event) :
    (ingestedEvent now e).ip = e.ip
    ∧ (ingestedEvent now e).source_ip = e.source_ip
    ∧ (ingestedEvent now e).country = e.country
    ∧ (ingestedEvent now e).protocol = e.protocol
    ∧ (ingestedEvent now e).honeypot = e.honeypot
    ∧ (ingestedEvent now e).source_lat = e.source_lat
    ∧ (ingestedEvent now e).source_lng = e.source_lng
    ∧ (ingestedEvent now e).cached_at = e.cached_at
    ∧ (ingestedEvent now e).timestamp = now
    ∧ (storedCopy now e).ip = e.ip
    ∧ (storedCopy now e).source_ip = e.source_ip
    ∧ (storedCopy now e).country = e.country
    ∧ (storedCopy now e).protocol = e.protocol
    ∧ (storedCopy now e).honeypot = e.honeypot
    ∧ (storedCopy now e).timestamp = (if e.timestamp ≠ 0 then e.timestamp else now)
    ∧ (storedCopy now e).cached_at = now
    ∧ storeEvent now e (.idb st) = .idb (st ++ [storedCopy now e]) := by
  refine ⟨rfl, rfl, rfl, rfl, rfl, rfl, rfl, rfl, rfl, rfl, rfl, rfl, rfl, rfl, rfl, rfl, rfl⟩

/-! ### C1: retention cleanup -/

lemma foldl_storeEventIDB (stores : List (Nat × Event)) (st : List Event) :
    List.foldl (fun st p => storeEventIDB p.1 p.2 st) st stores
      = st ++ stores.map (fun p => storedCopy p.1 p.2) := by
  induction stores generalizing st with
  | nil => simp
  | cons p rest ih =>
    simp only [List.foldl_cons, List.map_cons]
    rw [ih]
    simp [storeEventIDB, storeEventIndexedDB]

lemma mem_cleanupLocalStorage_events {now : Nat} {c : LSCache} {e : Event}
    (h : e ∈ (cleanupLocalStorage now c).events) :
    e ∈ c.events.filter (withinRetention now) := by
  simp only [cleanupLocalStorage] at h
  split at h
  · exact List.mem_of_mem_drop h
  · exact h

/-- **C1 (counterexample)** — The claim asserts the ≤ 10000 cap holds on the
IndexedDB backend too, but `cleanupIndexedDB` performs only the time-range
delete: storing 10001 fresh events and running cleanup leaves all 10001. -/
theorem c1_indexeddb_cap_not_enforced :
    (cleanupIndexedDB 86400001
        (List.foldl (fun st p => storeEventIDB p.1 p.2 st) []
          (List.replicate 10001
            (86400001, ⟨none, none, none, none, none, none, none, none, none, none, 86400001, 0⟩)))).length
      = 10001
    ∧ maxEvents = 10000 ∧ 10000 < 10001 := by
  refine ⟨?_, rfl, by omega⟩
  rw [foldl_storeEventIDB]
  rw [List.map_replicate]
  simp only [List.nil_append, cleanupIndexedDB]
  rw [List.filter_eq_self.mpr]
  · exact List.length_replicate 10001 _
  · intro a ha
    rw [List.eq_of_mem_replicate ha]
    decide

/-- **C1 (amended)** — For every sequence of `store()` calls followed by
`cleanup()`: on both backends the store afterwards contains no event with
timestamp ≤ `now - windowMs` (windowMs = 86400000); on the LocalStorage
backend the store moreover holds at most `maxCount = 10000` events and what
remains is a suffix of the retained sequence (the oldest stored events are
the ones discarded); the IndexedDB cleanup enforces only the time window,
not the count cap. -/
theorem c1_cleanup_retention (stores : List (Nat × Event)) (now : Nat) :
    (∀ e ∈ (cleanupLocalStorage now
        (List.foldl (fun c p => storeEventLS p.1 p.2 c) (initLSCache 0) stores)).events,
      ¬ ((e.timestamp : Int) ≤ (now : Int) - (retentionPeriod : Int)))
    ∧ (cleanupLocalStorage now
        (List.foldl (fun c p => storeEventLS p.1 p.2 c) (initLSCache 0) stores)).events.length
        ≤ maxEvents
    ∧ (∃ k, (cleanupLocalStorage now
        (List.foldl (fun c p => storeEventLS p.1 p.2 c) (initLSCache 0) stores)).events
        = ((List.foldl (fun c p => storeEventLS p.1 p.2 c) (initLSCache 0) stores).events.filter
            (withinRetention now)).drop k)
    ∧ (∀ e ∈ cleanupIndexedDB now
        (List.foldl (fun st p => storeEventIDB p.1 p.2 st) [] stores),
      ¬ ((e.timestamp : Int) ≤ (now : Int) - (retentionPeriod : Int)))
    ∧ retentionPeriod = 86400000 := by
  refine ⟨?_, ?_, ?_, ?_, rfl⟩
  · intro e he
    have hf := mem_cleanupLocalStorage_events he
    have hw : withinRetention now e = true := (List.mem_filter.mp hf).2
    simp only [withinRetention, Bool.and_eq_true, decide_eq_true_eq] at hw
    omega
  · simp only [cleanupLocalStorage]
    split
    · simp only [List.length_drop]
      omega
    · omega
  · simp only [cleanupLocalStorage]
    split
    · exact ⟨_, rfl⟩
    · exact ⟨0, rfl⟩
  · intro e he
    have h2 := (List.mem_filter.mp he).2
    simp only [Bool.not_eq_true', decide_eq_false_iff_not] at h2
    exact h2

/-! ### C6: heatmap intensity -/

lemma one_le_maxAttacks (l : List HeatSlot) : 1 ≤ maxAttacks l := by
  induction l with
  | nil => simp [maxAttacks]
  | cons s r ih =>
    simp only [maxAttacks, List.foldr_cons] at *
    omega

lemma attacks_le_maxAttacks {l : List HeatSlot} {s : HeatSlot} (h : s ∈ l) :
    s.attacks ≤ maxAttacks l := by
  induction l with
  | nil => cases h
  | cons a r ih =>
    simp only [maxAttacks, List.foldr_cons]
    rcases List.mem_cons.mp h with h1 | h1
    · subst h1; omega
    · have := ih h1
      simp only [maxAttacks] at this
      omega

lemma maxAttacks_cons (a : HeatSlot) (r : List HeatSlot) :
    maxAttacks (a :: r) = max a.attacks (maxAttacks r) := rfl

lemma maxAttacks_eq_one_or_mem (l : List HeatSlot) :
    maxAttacks l = 1 ∨ ∃ s ∈ l, s.attacks = maxAttacks l := by
  induction l with
  | nil => left; rfl
  | cons a r ih =>
    rw [maxAttacks_cons]
    rcases Nat.le_total a.attacks (maxAttacks r) with h | h
    · rw [Nat.max_eq_right h]
      rcases ih with h1 | ⟨s, hs, he⟩
      · left; exact h1
      · right; exact ⟨s, List.mem_cons_of_mem _ hs, he⟩
    · rw [Nat.max_eq_left h]
      right; exact ⟨a, List.mem_cons_self _ _, rfl⟩

lemma maxAttacks_map (f : HeatSlot → HeatSlot) (hf : ∀ s, (f s).attacks = s.attacks)
    (l : List HeatSlot) : maxAttacks (l.map f) = maxAttacks l := by
  induction l with
  | nil => rfl
  | cons a r ih =>
    rw [List.map_cons, maxAttacks_cons, maxAttacks_cons, hf, ih]

lemma maxAttacks_recomputeIntensity (l : List HeatSlot) :
    maxAttacks (recomputeIntensity l) = maxAttacks l := by
  unfold recomputeIntensity
  exact maxAttacks_map
    (fun s => { s with intensity := if 0 < maxAttacks l then (s.attacks : ℚ) / (maxAttacks l : ℚ) * 100 else 0 })
    (fun _ => rfl) l

lemma length_modifyAt {α : Type} (i : Nat) (f : α → α) (l : List α) :
    (modifyAt i f l).length = l.length := by
  induction l generalizing i with
  | nil => simp [modifyAt]
  | cons a r ih =>
    cases i with
    | zero => simp [modifyAt]
    | succ j => simp [modifyAt, ih]

/-- **C6** — After every ingest into the heatmap every slot satisfies
`intensity = attacks / max(maxAttacks, 1) * 100`, all intensities having
been recomputed on that ingest; hence whenever any slot has a nonzero
attack count, some slot has intensity 100.  The slot count is preserved and
the attack hour always addresses one of the 24 slots. -/
theorem c6_heatmap_recompute (t : Nat) (hm : List HeatSlot) :
    (addAttackToHeatmap t hm).length = hm.length
    ∧ (∀ s ∈ addAttackToHeatmap t hm,
        s.intensity = (s.attacks : ℚ) / (maxAttacks (addAttackToHeatmap t hm) : ℚ) * 100)
    ∧ ((∀ s ∈ addAttackToHeatmap t hm, s.attacks = 0)
        ∨ (∃ s ∈ addAttackToHeatmap t hm, s.intensity = 100))
    ∧ hourOf t < 24 := by
  set inc := modifyAt (hourOf t) (fun s => { s with attacks := s.attacks + 1 }) hm with hinc
  have hmax : maxAttacks (addAttackToHeatmap t hm) = maxAttacks inc := by
    simp only [addAttackToHeatmap, ← hinc]
    exact maxAttacks_recomputeIntensity inc
  have hpos : (0 : ℚ) < (maxAttacks inc : ℚ) := by
    have := one_le_maxAttacks inc
    exact_mod_cast Nat.lt_of_lt_of_le Nat.zero_lt_one this
  refine ⟨?_, ?_, ?_, ?_⟩
  · simp only [addAttackToHeatmap, ← hinc, recomputeIntensity, List.length_map]
    exact length_modifyAt _ _ hm
  · intro s hs
    simp only [addAttackToHeatmap, ← hinc, recomputeIntensity, List.mem_map] at hs
    obtain ⟨s0, hs0, rfl⟩ := hs
    have hcond : 0 < maxAttacks inc := by
      have := one_le_maxAttacks inc
      omega
    simp only [hcond, if_pos, hmax]
  · by_cases hz : ∀ s ∈ inc, s.attacks = 0
    · left
      intro s hs
      simp only [addAttackToHeatmap, ← hinc, recomputeIntensity, List.mem_map] at hs
      obtain ⟨s0, hs0, rfl⟩ := hs
      exact hz s0 hs0
    · right
      push_neg at hz
      obtain ⟨s0, hs0, hne⟩ := hz
      have hsmax : ∃ sm ∈ inc, sm.attacks = maxAttacks inc := by
        rcases maxAttacks_eq_one_or_mem inc with h1 | h1
        · refine ⟨s0, hs0, ?_⟩
          have hle := attacks_le_maxAttacks hs0
          omega
        · exact h1
      obtain ⟨sm, hsm, hsme⟩ := hsmax
      have hcond : 0 < maxAttacks inc := by
        have := one_le_maxAttacks inc
        omega
      refine ⟨{ sm with intensity :=
        if 0 < maxAttacks inc then (sm.attacks : ℚ) / (maxAttacks inc : ℚ) * 100 else 0 }, ?_, ?_⟩
      · simp only [addAttackToHeatmap, ← hinc, recomputeIntensity, List.mem_map]
        exact ⟨sm, hsm, rfl⟩
      · simp only [hcond, if_pos, hsme]
        rw [div_self (ne_of_gt hpos)]
        norm_num
  · simp only [hourOf]
    omega

/-! ### C5: timeline bucket count -/

lemma bumpExistingBucket_length {d t : Nat} :
    ∀ {tl tl2 : List TimelinePoint}, bumpExistingBucket d t tl = some tl2 →
      tl2.length = tl.length := by
  intro tl
  induction tl with
  | nil => intro tl2 h; simp [bumpExistingBucket] at h
  | cons p r ih =>
    intro tl2 h
    simp only [bumpExistingBucket] at h
    split at h
    · cases h; simp
    · rcases Option.map_eq_some'.mp h with ⟨r2, hr2, rfl⟩
      simp [ih hr2]

lemma synthBuckets_length (d t : Nat) :
    ∀ (fuel current : Nat) (tl : List TimelinePoint), tl ≠ [] →
      (synthBuckets d t fuel current tl).length = tl.length := by
  intro fuel
  induction fuel with
  | zero => intro current tl _; rfl
  | succ n ih =>
    intro current tl hne
    simp only [synthBuckets]
    split
    · split
      · simp only [List.length_append, List.length_tail, List.length_cons, List.length_nil]
        have : 0 < tl.length := List.length_pos.mpr hne
        omega
      · rw [ih (current + d) _ (by simp)]
        simp only [List.length_append, List.length_tail, List.length_cons, List.length_nil]
        have : 0 < tl.length := List.length_pos.mpr hne
        omega
    · rfl

lemma bumpExistingBucket_none_of_lt {d t : Nat} {tl : List TimelinePoint}
    (h : ∀ p ∈ tl, t < p.timestamp) : bumpExistingBucket d t tl = none := by
  induction tl with
  | nil => rfl
  | cons p r ih =>
    simp only [bumpExistingBucket]
    have hp := h p (List.mem_cons_self _ _)
    rw [if_neg (by omega)]
    rw [ih (fun q hq => h q (List.mem_cons_of_mem _ hq))]
    rfl

lemma mem_of_getLast? {α : Type} : ∀ {l : List α} {a : α}, l.getLast? = some a → a ∈ l := by
  intro l
  induction l with
  | nil => intro a h; simp at h
  | cons x r ih =>
    intro a h
    cases r with
    | nil =>
      simp only [List.getLast?_singleton, Option.some.injEq] at h
      simp [h]
    | cons y s =>
      rw [List.getLast?_cons_cons] at h
      exact List.mem_cons_of_mem _ (ih h)

lemma addAttackToTimeline_length (iv : TimelineInterval) (t : Nat)
    {tl : List TimelinePoint} (hne : tl ≠ []) :
    (addAttackToTimeline iv t tl).length = tl.length := by
  unfold addAttackToTimeline
  simp only []
  split
  next tl2 hb => exact bumpExistingBucket_length hb
  next hb =>
    split
    next hl => rfl
    next lastP hl =>
      split
      next hc => exact synthBuckets_length _ _ _ _ tl hne
      next hc => rfl

lemma addAttackToTimeline_drop_old (iv : TimelineInterval) (t : Nat)
    {tl : List TimelinePoint} (_hne : tl ≠ [])
    (hold : ∀ p ∈ tl, t < p.timestamp) :
    addAttackToTimeline iv t tl = tl := by
  unfold addAttackToTimeline
  simp only [bumpExistingBucket_none_of_lt hold]
  split
  next hl => rfl
  next lastP hl =>
    have hlt := hold lastP (mem_of_getLast? hl)
    have hc : ¬ (lastP.timestamp + durationFor iv ≤ t) := by omega
    rw [if_neg hc]

/-- **C5** — The timeline always holds exactly the fixed bucket count for
the active granularity: `generateTimelineData` creates 24 buckets in hour
mode and 60 in minute and second modes; `addAttackToTimeline` never changes
the length (synthesis shifts one bucket out per bucket appended), and an
attack older than every bucket start leaves the timeline untouched. -/
theorem c5_timeline_fixed_buckets (iv : TimelineInterval) (now t : Nat)
    (tl : List TimelinePoint) :
    (generateTimelineData iv now).length = pointsFor iv
    ∧ pointsFor .twentyFourHours = 24
    ∧ pointsFor .oneHour = 60
    ∧ pointsFor .oneMinute = 60
    ∧ (tl ≠ [] → (addAttackToTimeline iv t tl).length = tl.length)
    ∧ ((∀ p ∈ tl, t < p.timestamp) → tl ≠ [] → addAttackToTimeline iv t tl = tl) := by
  exact ⟨by simp [generateTimelineData], rfl, rfl, rfl,
    fun hne => addAttackToTimeline_length iv t hne,
    fun hold hne => addAttackToTimeline_drop_old iv t hne hold⟩

/-- Witness for `c5_timeline_fixed_buckets`: a one-bucket timeline starting
at 5 is left unchanged by an attack at time 0, with length preserved. -/
theorem c5_timeline_fixed_buckets_witness :
    (([⟨5, 0⟩] : List TimelinePoint) ≠ [])
    ∧ (∀ p ∈ ([⟨5, 0⟩] : List TimelinePoint), 0 < p.timestamp)
    ∧ addAttackToTimeline .twentyFourHours 0 [⟨5, 0⟩] = [⟨5, 0⟩]
    ∧ (addAttackToTimeline .twentyFourHours 0 [⟨5, 0⟩]).length = 1 := by
  refine ⟨by decide, by decide, ?_, ?_⟩
  · exact (c5_timeline_fixed_buckets .twentyFourHours 0 0 [⟨5, 0⟩]).2.2.2.2.2
      (by decide) (by decide)
  · have h := (c5_timeline_fixed_buckets .twentyFourHours 0 0 [⟨5, 0⟩]).2.2.2.2.1 (by decide)
    simpa using h

/-! ### C8: visual-marker restoration filter -/

lemma restoreStep_none {st : List Event × List String} {e : Event}
    (hk : locationKey e = none) : restoreStep st e = st := by
  unfold restoreStep
  rw [hk]

lemma restoreStep_some_pos {st : List Event × List String} {e : Event} {k : String}
    (hk : locationKey e = some k) (hc : st.2.length < maxMapCircles ∨ k ∈ st.2) :
    restoreStep st e = (st.1 ++ [e], insertKey k st.2) := by
  unfold restoreStep
  rw [hk]
  simp only []
  rw [if_pos hc]

lemma restoreStep_some_neg {st : List Event × List String} {e : Event} {k : String}
    (hk : locationKey e = some k) (hc : ¬ (st.2.length < maxMapCircles ∨ k ∈ st.2)) :
    restoreStep st e = st := by
  unfold restoreStep
  rw [hk]
  simp only []
  rw [if_neg hc]

lemma restoreStep_keys_bound (st : List Event × List String) (e : Event) :
    (restoreStep st e).2.length ≤ max st.2.length maxMapCircles := by
  cases hk : locationKey e with
  | none =>
    rw [restoreStep_none hk]
    exact Nat.le_max_left _ _
  | some k =>
    by_cases hc : st.2.length < maxMapCircles ∨ k ∈ st.2
    · rw [restoreStep_some_pos hk hc]
      simp only [insertKey]
      by_cases hm : k ∈ st.2
      · rw [if_pos hm]
        exact Nat.le_max_left _ _
      · rw [if_neg hm]
        simp only [List.length_append, List.length_cons, List.length_nil]
        rcases hc with hc | hc
        · have h1 := Nat.le_max_right st.2.length maxMapCircles
          omega
        · exact absurd hc hm
    · rw [restoreStep_some_neg hk hc]
      exact Nat.le_max_left _ _

lemma foldl_restoreStep_keys_bound (l : List Event) (st : List Event × List String)
    (h : st.2.length ≤ maxMapCircles) :
    (l.foldl restoreStep st).2.length ≤ maxMapCircles := by
  induction l generalizing st with
  | nil => exact h
  | cons e r ih =>
    rw [List.foldl_cons]
    refine ih _ ?_
    have h1 := restoreStep_keys_bound st e
    have h2 := Nat.max_le.mp (le_refl (max st.2.length maxMapCircles))
    omega

lemma foldl_restoreStep_sublist (l : List Event) (st : List Event × List String) :
    ∃ sel, (l.foldl restoreStep st).1 = st.1 ++ sel ∧ List.Sublist sel l := by
  induction l generalizing st with
  | nil => exact ⟨[], by simp, List.nil_sublist []⟩
  | cons e r ih =>
    rw [List.foldl_cons]
    cases hk : locationKey e with
    | none =>
      rw [restoreStep_none hk]
      obtain ⟨sel, h1, h2⟩ := ih st
      exact ⟨sel, h1, h2.cons e⟩
    | some k =>
      by_cases hc : st.2.length < maxMapCircles ∨ k ∈ st.2
      · rw [restoreStep_some_pos hk hc]
        obtain ⟨sel, h1, h2⟩ := ih (st.1 ++ [e], insertKey k st.2)
        refine ⟨e :: sel, ?_, h2.cons₂ e⟩
        rw [h1]
        simp
      · rw [restoreStep_some_neg hk hc]
        obtain ⟨sel, h1, h2⟩ := ih st
        exact ⟨sel, h1, h2.cons e⟩

/-- **C8** — The marker-restoration filter scans the cached events newest
to oldest and a scanned event is selected (appended) iff it has a location
key and either fewer than 200 distinct keys have been collected or its key
is already among them; each step grows the key set to at most
`max (existing, 200)` entries, so a scan from the empty set keeps at most
200 distinct keys; and the final selection, being reversed, is a
subsequence of the cached list in chronological (oldest-first) order. -/
theorem c8_marker_restoration (evs : List Event) (st : List Event × List String) (e : Event) :
    ((restoreStep st e).1 = st.1 ∨ (restoreStep st e).1 = st.1 ++ [e])
    ∧ ((restoreStep st e).1 = st.1 ++ [e] ↔
        ∃ k, locationKey e = some k ∧ (st.2.length < maxMapCircles ∨ k ∈ st.2))
    ∧ (restoreStep st e).2.length ≤ max st.2.length maxMapCircles
    ∧ ((evs.reverse.foldl restoreStep ([], [])).2.length ≤ maxMapCircles)
    ∧ List.Sublist (finalizeMapEvents evs) evs
    ∧ maxMapCircles = 200 := by
  have hlen : st.1 ++ [e] ≠ st.1 := by
    intro h
    have := congrArg List.length h
    simp at this
  refine ⟨?_, ?_, restoreStep_keys_bound st e, ?_, ?_, rfl⟩
  · cases hk : locationKey e with
    | none => left; rw [restoreStep_none hk]
    | some k =>
      by_cases hc : st.2.length < maxMapCircles ∨ k ∈ st.2
      · right; rw [restoreStep_some_pos hk hc]
      · left; rw [restoreStep_some_neg hk hc]
  · constructor
    · intro h
      cases hk : locationKey e with
      | none =>
        rw [restoreStep_none hk] at h
        exact absurd h.symm hlen
      | some k =>
        by_cases hc : st.2.length < maxMapCircles ∨ k ∈ st.2
        · exact ⟨k, rfl, hc⟩
        · rw [restoreStep_some_neg hk hc] at h
          exact absurd h.symm hlen
    · rintro ⟨k, hk, hc⟩
      rw [restoreStep_some_pos hk hc]
  · exact foldl_restoreStep_keys_bound evs.reverse ([], []) (by simp)
  · unfold finalizeMapEvents
    obtain ⟨sel, h1, h2⟩ := foldl_restoreStep_sublist evs.reverse ([], [])
    rw [h1]
    simp only [List.nil_append]
    have h3 : List.Sublist sel.reverse evs.reverse.reverse := List.Sublist.reverse h2
    rwa [List.reverse_reverse] at h3

/-! ### C2: replay / live equivalence -/

lemma ingestedEvent_self (e : Event) : ingestedEvent e.timestamp e = e := by
  cases e
  rfl

lemma jsOrS_self (a : Option String) : jsOrS a a = a := by
  unfold jsOrS
  split <;> rfl

lemma attackTime_of_ne_zero {e : Event} (h : e.timestamp ≠ 0) (now : Nat) :
    attackTime e now = e.timestamp := by
  simp [attackTime, h]

lemma updateIPTracking_now_irrel {e : Event} (h : e.timestamp ≠ 0)
    (ipArg country : Option String) (n1 n2 : Nat) (m : List (String × IpEntry)) :
    updateIPTracking ipArg country e n1 m = updateIPTracking ipArg country e n2 m := by
  unfold updateIPTracking
  simp [jsDateOf, h]

lemma liveAggStep_eq_replayAggStep (iv : TimelineInterval) (rnow : Nat) (s : AggState)
    {e : Event} (h1 : e.ip = e.source_ip) (h2 : e.timestamp ≠ 0) :
    liveAggStep iv e.timestamp s e = replayAggStep iv rnow s e := by
  unfold liveAggStep replayAggStep
  rw [ingestedEvent_self]
  show ({ ipStats := updateIPTracking e.ip e.country e e.timestamp s.ipStats
          timeline := addAttackToTimeline iv (attackTime e e.timestamp) s.timeline
          heatmap := addAttackToHeatmap (attackTime e e.timestamp) s.heatmap
          protocolStats := updateProtocolStats e.protocol s.protocolStats } : AggState) = _
  rw [attackTime_of_ne_zero h2 e.timestamp, attackTime_of_ne_zero h2 rnow]
  rw [← h1, jsOrS_self]
  rw [updateIPTracking_now_irrel h2 e.ip e.country e.timestamp rnow]

/-- **C2** — Replaying a list of stored events through the aggregation
engine (the restore batch path, persistence suppressed) produces exactly
the same top-IP tracker, timeline histogram, heatmap and protocol histogram
as live-ingesting the same events through `addAttackEvent`, each live
ingest happening at the event's own timestamp (the meaning of ingesting
the same events in ascending timestamp order).  The hypotheses hold for
every event the transport hands over: `ip` and `source_ip` are both set
from `msg.src_ip` and the stamped timestamp is nonzero. -/
theorem c2_replay_live_equivalence (iv : TimelineInterval) (rnow : Nat)
    (evs : List Event) (s0 : AggState)
    (h : ∀ e ∈ evs, e.ip = e.source_ip ∧ e.timestamp ≠ 0) :
    evs.foldl (fun s e => liveAggStep iv e.timestamp s e) s0
      = evs.foldl (replayAggStep iv rnow) s0 := by
  induction evs generalizing s0 with
  | nil => rfl
  | cons e r ih =>
    rw [List.foldl_cons, List.foldl_cons]
    obtain ⟨h1, h2⟩ := h e (List.mem_cons_self _ _)
    rw [liveAggStep_eq_replayAggStep iv rnow s0 h1 h2]
    exact ih _ (fun x hx => h x (List.mem_cons_of_mem _ hx))

/-- Witness for `c2_replay_live_equivalence` on one event with
`ip = source_ip = "1.2.3.4"`, protocol SSH and timestamp 1. -/
theorem c2_replay_live_equivalence_witness :
    (∀ e ∈ [(⟨some "1.2.3.4", some "1.2.3.4", none, some "US", none, none, some "SSH", none, none, none, 1, 0⟩ : Event)], e.ip = e.source_ip ∧ e.timestamp ≠ 0)
    ∧ [(⟨some "1.2.3.4", some "1.2.3.4", none, some "US", none, none, some "SSH", none, none, none, 1, 0⟩ : Event)].foldl
        (fun s e => liveAggStep .twentyFourHours e.timestamp s e) ⟨[], [], [], []⟩
      = [(⟨some "1.2.3.4", some "1.2.3.4", none, some "US", none, none, some "SSH", none, none, none, 1, 0⟩ : Event)].foldl
        (replayAggStep .twentyFourHours 99) ⟨[], [], [], []⟩ := by
  refine ⟨by decide, ?_⟩
  exact c2_replay_live_equivalence .twentyFourHours 99 _ ⟨[], [], [], []⟩ (by decide)

/-! ### C10: no persistence while restoring -/

lemma addAttackEvent_flags (iv : TimelineInterval) (now : Nat) (e : Event) (s : DashState) :
    (addAttackEvent iv now e s).cacheInitialized = s.cacheInitialized
    ∧ (addAttackEvent iv now e s).restoringFromCache = s.restoringFromCache := by
  constructor <;> rfl

lemma applyStores_append (st : StoreState) (l1 l2 : List (Nat × Event)) :
    applyStores st (l1 ++ l2) = applyStores (applyStores st l1) l2 := by
  unfold applyStores
  exact List.foldl_append _ _ l1 l2

lemma dashRun_store_characterization (iv : TimelineInterval) (acts : List DashAction)
    (s : DashState) :
    (dashRun iv s acts).store
      = applyStores s.store (storedTrace s.cacheInitialized s.restoringFromCache acts) := by
  induction acts generalizing s with
  | nil => rfl
  | cons a rest ih =>
    cases a with
    | ingest now e =>
      show (dashRun iv (addAttackEvent iv now e s) rest).store = _
      rw [ih (addAttackEvent iv now e s)]
      rw [(addAttackEvent_flags iv now e s).1, (addAttackEvent_flags iv now e s).2]
      show _ = applyStores s.store
        ((if s.cacheInitialized ∧ ¬s.restoringFromCache then [(now, ingestedEvent now e)] else [])
          ++ storedTrace s.cacheInitialized s.restoringFromCache rest)
      rw [applyStores_append]
      by_cases hc : s.cacheInitialized ∧ ¬s.restoringFromCache
      · rw [if_pos hc]
        have hst : (addAttackEvent iv now e s).store = storeEvent now (ingestedEvent now e) s.store := by
          unfold addAttackEvent
          simp only [if_pos hc]
        rw [hst]
        rfl
      · rw [if_neg hc]
        have hst : (addAttackEvent iv now e s).store = s.store := by
          unfold addAttackEvent
          simp only [if_neg hc]
        rw [hst]
        rfl
    | beginRestore =>
      show (dashRun iv { s with restoringFromCache := true } rest).store = _
      rw [ih { s with restoringFromCache := true }]
      rfl
    | finishRestore =>
      show (dashRun iv { s with restoringFromCache := false } rest).store = _
      rw [ih { s with restoringFromCache := false }]
      rfl

/-- **C10** — A live event reaching `addAttackEvent` while
`restoringFromCache` is true leaves the persistent store unchanged while
the aggregation state is updated exactly as for any live event; along any
run, the store content is determined by the ingests executed while the
flag was down, and an ingest executed while it was up contributes nothing
to that stored trace, so the event is permanently absent from the
persisted cache. -/
theorem c10_no_persist_during_restore (iv : TimelineInterval) (s : DashState)
    (now : Nat) (e : Event) (acts : List DashAction)
    (h : s.restoringFromCache = true) :
    (addAttackEvent iv now e s).store = s.store
    ∧ (addAttackEvent iv now e s).agg = liveAggStep iv now s.agg e
    ∧ (dashRun iv s acts).store
        = applyStores s.store (storedTrace s.cacheInitialized s.restoringFromCache acts)
    ∧ storedTrace s.cacheInitialized true (.ingest now e :: acts)
        = storedTrace s.cacheInitialized true acts := by
  refine ⟨?_, rfl, dashRun_store_characterization iv acts s, ?_⟩
  · unfold addAttackEvent
    have hc : ¬ (s.cacheInitialized ∧ ¬s.restoringFromCache) := by
      intro hx
      exact hx.2 (by simp [h])
    simp only [if_neg hc]
  · show (if s.cacheInitialized ∧ ¬true then [(now, ingestedEvent now e)] else [])
        ++ storedTrace s.cacheInitialized true acts = _
    simp

/-- Witness for `c10_no_persist_during_restore`: a restoring dashboard
state ingesting one event keeps its (IndexedDB) store empty. -/
theorem c10_no_persist_during_restore_witness :
    (addAttackEvent .twentyFourHours 7
      (⟨some "9.9.9.9", some "9.9.9.9", none, none, none, none, some "HTTP", none, none, none, 3, 0⟩ : Event)
      ⟨true, true, [], ⟨[], [], [], []⟩, .idb []⟩).store = StoreState.idb [] := by
  exact (c10_no_persist_during_restore .twentyFourHours
    ⟨true, true, [], ⟨[], [], [], []⟩, .idb []⟩ 7
    (⟨some "9.9.9.9", some "9.9.9.9", none, none, none, none, some "HTTP", none, none, none, 3, 0⟩ : Event)
    [] rfl).1

/-- Witness for `c1_cleanup_retention`: after storing one fresh event at
time 86400001 and cleaning up, the retained record is inside the window. -/
theorem c1_cleanup_retention_witness :
    ¬ (((storedCopy 86400001
        (⟨none, none, none, none, none, none, none, none, none, none, 86400001, 0⟩ : Event)).timestamp : Int)
      ≤ (86400001 : Int) - (retentionPeriod : Int)) :=
  (c1_cleanup_retention
      [(86400001, ⟨none, none, none, none, none, none, none, none, none, none, 86400001, 0⟩)]
      86400001).1
    (storedCopy 86400001 ⟨none, none, none, none, none, none, none, none, none, none, 86400001, 0⟩)
    (by decide)

/-- Witness for `c6_heatmap_recompute` on the initial 24-slot heatmap. -/
theorem c6_heatmap_recompute_witness :
    (addAttackToHeatmap 0 setupHeatmapData).length = setupHeatmapData.length
    ∧ ((∀ s ∈ addAttackToHeatmap 0 setupHeatmapData, s.attacks = 0)
        ∨ (∃ s ∈ addAttackToHeatmap 0 setupHeatmapData, s.intensity = 100)) :=
  ⟨(c6_heatmap_recompute 0 setupHeatmapData).1,
   (c6_heatmap_recompute 0 setupHeatmapData).2.2.1⟩

/-- Witness for `c7_query_recent_amended`: a stored event with timestamp
86400001 is returned by the fallback query at `now = 86400001`. -/
theorem c7_query_recent_amended_witness :
    (⟨none, none, none, none, none, none, none, none, none, none, 86400001, 0⟩ : Event)
      ∈ getStoredEventsLocalStorage 86400001
        ⟨[⟨none, none, none, none, none, none, none, none, none, none, 86400001, 0⟩], 0, 1⟩ :=
  ((c7_query_recent_amended 86400001
      ⟨[⟨none, none, none, none, none, none, none, none, none, none, 86400001, 0⟩], 0, 1⟩ []).1
    ⟨none, none, none, none, none, none, none, none, none, none, 86400001, 0⟩).mpr
    ⟨by decide, by decide, by decide⟩
